import Mathlib

/-!
Verification of the sitemap collection/emission routine of the
quantum-reactor-pattern documentation site.

The only procedural code the repository owns lives in
`docs/.vitepress/config.mts`:

* a module-level accumulator
  `const links: { url: string, lastmod: number | undefined }[] = []`;
* the per-page hook `transformPageData(pageData)`, which pushes
  `{ url: pageData.relativePath.replace(/index\.md$/, '').replace(/\.md$/, '.html'),
     lastmod: pageData.lastUpdated }`;
* the `buildEnd` hook, which creates a `SitemapStream` with hostname
  `https://yourdomain.com/`, pipes it to `outDir/sitemap.xml`, writes the
  collected links in order (`links.forEach((link) => sitemap.write(link))`),
  ends the stream and awaits the finish event.

Strings are embedded through their character sequences (`String.data`),
which is faithful for the ASCII suffix manipulations the code performs.
The serialization performed by the external `sitemap` npm library is not
part of the repository; it is modelled from the spec where noted.
-/

namespace QuantumReactor

/-- One collected link, from
`const links: { url: string, lastmod: number | undefined }[] = []`.
`number | undefined` is embedded as `Option Nat`. -/
structure PageLinkRecord where
  url : String
  lastmod : Option Nat
deriving Repr, DecidableEq

/-- JS `s.endsWith(suffix)` (equivalently, whether the end-anchored literal
regex `/suffix$/` matches), on the character-sequence view of strings. -/
def strEndsWith (s suffix : String) : Bool :=
  suffix.data.isSuffixOf s.data

/-- Remove the last `n` characters of `s` (all of them when `n` exceeds the
length). -/
def strDropRight (s : String) (n : Nat) : String :=
  ⟨s.data.take (s.data.length - n)⟩

/-- JS `s.replace(/suffix$/, repl)` for a literal, end-anchored pattern: a
non-global end-anchored regex matches at most once, at the very end, so the
replacement removes the matched suffix and appends `repl`; a non-matching
string is returned unchanged. -/
def replaceEnd (s suffix repl : String) : String :=
  if strEndsWith s suffix then strDropRight s suffix.data.length ++ repl else s

/-- The URL normalization inside `transformPageData`:
`pageData.relativePath.replace(/index\.md$/, '').replace(/\.md$/, '.html')`. -/
def normalizeUrl (relativePath : String) : String :=
  replaceEnd (replaceEnd relativePath "index.md" "") ".md" ".html"

/-- The `transformPageData` hook: appends one record to the shared `links`
list, with the normalized url and the page's `lastUpdated` timestamp. -/
def transformPageData (relativePath : String) (lastUpdated : Option Nat)
    (links : List PageLinkRecord) : List PageLinkRecord :=
  links ++ [{ url := normalizeUrl relativePath, lastmod := lastUpdated }]

/-- The hostname constant passed to `new SitemapStream({...})` in `buildEnd`. -/
def hostname : String := "https://yourdomain.com/"

/-- One serialized sitemap url entry: an absolute location plus the optional
last-modified timestamp. -/
structure SitemapEntry where
  loc : String
  lastmod : Option Nat
deriving Repr, DecidableEq

/-- Modelled from the spec: the entry the external `sitemap` library emits
for one record — "for each record, concatenate `hostBaseUrl` and `url` to
form an absolute URL; emit one sitemap entry per record carrying that URL
and, if present, the `lastModified` value". -/
def sitemapWrite (hostBaseUrl : String) (r : PageLinkRecord) : SitemapEntry :=
  { loc := hostBaseUrl ++ r.url, lastmod := r.lastmod }

/-- The emission loop of `buildEnd`,
`links.forEach((link) => sitemap.write(link))`: each record is written to
the stream in list order, accumulating serialized entries. -/
def emitLoop (hostBaseUrl : String) :
    List PageLinkRecord → List SitemapEntry → List SitemapEntry
  | [], acc => acc
  | l :: ls, acc => emitLoop hostBaseUrl ls (acc ++ [sitemapWrite hostBaseUrl l])

/-- The full sequence of url entries produced by one run of the emission
loop, starting from an empty stream. -/
def emitSitemapEntries (hostBaseUrl : String) (links : List PageLinkRecord) :
    List SitemapEntry :=
  emitLoop hostBaseUrl links []

/-- Opening of the sitemap document: XML declaration plus the urlset root
element (spec: "a root urlset element containing one url element per
record"). -/
def urlsetOpen : String :=
  "<?xml version=\"1.0\" encoding=\"UTF-8\"?><urlset xmlns=\"http://www.sitemaps.org/schemas/sitemap/0.9\">"

/-- Closing tag of the urlset root element. -/
def urlsetClose : String :=
  "</urlset>"

/-- Modelled from the spec: the serialization of one entry by the external
`sitemap` library — a url element with a loc (the absolute URL) and, only
when the timestamp is present, a lastmod element; the timestamp's textual
form is abstracted as its decimal value. -/
def renderEntry (e : SitemapEntry) : String :=
  "<url><loc>" ++ e.loc ++ "</loc>" ++
    (match e.lastmod with
      | none => ""
      | some t => "<lastmod>" ++ toString t ++ "</lastmod>") ++
    "</url>"

/-- Modelled from the spec: the byte content of the emitted sitemap
document — the urlset wrapper around the entries' serializations, in the
order the emission loop wrote them. -/
def renderSitemap (hostBaseUrl : String) (links : List PageLinkRecord) : String :=
  urlsetOpen ++ String.join ((emitSitemapEntries hostBaseUrl links).map renderEntry) ++ urlsetClose

/-- A file system, as a map from paths to file contents. -/
def FileSystem : Type := String → Option String

/-- Writing a file: the destination path now holds `content`; every other
path is untouched. -/
def writeFile (fs : FileSystem) (path content : String) : FileSystem :=
  fun p => if p = path then some content else fs p

/-- `resolve(outDir, 'sitemap.xml')` from `buildEnd`. -/
def resolvePath (dir file : String) : String :=
  dir ++ "/" ++ file

/-- The whole emission: render the sitemap for the collected records and
write it to `outDir/sitemap.xml` (stream piped to
`createWriteStream(resolve(outDir, 'sitemap.xml'))`). -/
def emitSitemap (fs : FileSystem) (hostBaseUrl outDir : String)
    (links : List PageLinkRecord) : FileSystem :=
  writeFile fs (resolvePath outDir "sitemap.xml") (renderSitemap hostBaseUrl links)

/-- The build state the two hooks share: the collected `links` list and the
output file system. -/
structure BuildState where
  links : List PageLinkRecord
  fs : FileSystem

/-- The `buildEnd` hook as a state transformer: it reads `links`, emits the
sitemap with the configured `hostname`, and writes only the file system. -/
def buildEnd (outDir : String) (st : BuildState) : BuildState :=
  { links := st.links, fs := emitSitemap st.fs hostname outDir st.links }

/-! ### Helper lemmas -/

/-- Appending the empty string is the identity. -/
theorem str_append_empty (s : String) : s ++ "" = s := by
  cases s with
  | mk d => exact congrArg String.mk (List.append_nil d)

/-- The emission loop appends the serialized records, in order, to the
entries already written. -/
theorem emitLoop_eq (h : String) (ls : List PageLinkRecord)
    (acc : List SitemapEntry) :
    emitLoop h ls acc = acc ++ ls.map (sitemapWrite h) := by
  induction ls generalizing acc with
  | nil => simp [emitLoop]
  | cons l ls ih => simp [emitLoop, ih]

/-- The entry sequence is the in-order serialization of the records. -/
theorem emitSitemapEntries_eq (h : String) (ls : List PageLinkRecord) :
    emitSitemapEntries h ls = ls.map (sitemapWrite h) := by
  simp [emitSitemapEntries, emitLoop_eq]

/-- `strEndsWith` agrees with the suffix relation on character data. -/
theorem strEndsWith_iff (s suffix : String) :
    strEndsWith s suffix = true ↔ suffix.data <:+ s.data := by
  simp [strEndsWith, List.isSuffixOf_iff_suffix]

/-- A matching end-anchored replace removes the suffix and appends the
replacement. -/
theorem replaceEnd_pos (s suffix repl : String)
    (h : strEndsWith s suffix = true) :
    replaceEnd s suffix repl = strDropRight s suffix.data.length ++ repl := by
  rw [replaceEnd, if_pos h]

/-- A non-matching end-anchored replace leaves the string unchanged. -/
theorem replaceEnd_neg (s suffix repl : String)
    (h : strEndsWith s suffix = false) :
    replaceEnd s suffix repl = s := by
  rw [replaceEnd, if_neg (by simp [h])]

/-- Writing the same content to the same path twice equals writing it
once. -/
theorem writeFile_idem (fs : FileSystem) (path content : String) :
    writeFile (writeFile fs path content) path content =
      writeFile fs path content := by
  funext p
  by_cases hp : p = path <;> simp [writeFile, hp]

/-! ### Claims -/

/-- C1: for every build, the emitted sitemap contains exactly one url entry
per collected `PageLinkRecord` (no duplication, no loss), the entries appear
in the order the records were collected, and each entry's absolute URL is
the concatenation of the configured host base URL and the record's url
field. -/
theorem sitemap_one_entry_per_record (h : String) (ls : List PageLinkRecord) :
    (emitSitemapEntries h ls).length = ls.length ∧
    ∀ i : Nat,
      (emitSitemapEntries h ls)[i]? =
        (ls[i]?).map (fun r => { loc := h ++ r.url, lastmod := r.lastmod }) := by
  constructor
  · simp [emitSitemapEntries_eq]
  · intro i
    rw [emitSitemapEntries_eq]
    exact List.getElem?_map (sitemapWrite h) ls i

/-- C3 counterexample: the claim says a path ending in `index.md` has
exactly that suffix removed, but on the concrete path `a.mdindex.md` the
code strips `index.md` and then still applies the `.md -> .html`
replacement to the remainder, yielding `a.html` instead of `a.md`. -/
theorem normalizeUrl_index_elision_cex :
    strEndsWith "a.mdindex.md" "index.md" = true ∧
    strDropRight "a.mdindex.md" 8 = "a.md" ∧
    normalizeUrl "a.mdindex.md" = "a.html" ∧
    normalizeUrl "a.mdindex.md" ≠ strDropRight "a.mdindex.md" 8 := by
  refine ⟨by decide, by decide, by decide, by decide⟩

/-- C3 (amended): a path ending in `index.md` has that suffix removed and
the `.md -> .html` replacement is then still applied to the remaining
prefix (so a prefix itself ending in `.md` becomes `.html`); any other path
ending in `.md` has the `.md` replaced by `.html`. -/
theorem normalizeUrl_spec (s : String) :
    (strEndsWith s "index.md" = true →
      normalizeUrl s =
        (if strEndsWith (strDropRight s 8) ".md" then
          strDropRight (strDropRight s 8) 3 ++ ".html"
        else strDropRight s 8)) ∧
    (strEndsWith s "index.md" = false → strEndsWith s ".md" = true →
      normalizeUrl s = strDropRight s 3 ++ ".html") := by
  constructor
  · intro hidx
    have h1 : replaceEnd s "index.md" "" = strDropRight s 8 := by
      rw [replaceEnd_pos s "index.md" "" hidx,
        show ("index.md" : String).data.length = 8 from rfl, str_append_empty]
    show replaceEnd (replaceEnd s "index.md" "") ".md" ".html" = _
    rw [h1, replaceEnd, show (".md" : String).data.length = 3 from rfl]
  · intro hidx hmd
    have h1 : replaceEnd s "index.md" "" = s := replaceEnd_neg s "index.md" "" hidx
    show replaceEnd (replaceEnd s "index.md" "") ".md" ".html" = _
    rw [h1, replaceEnd_pos s ".md" ".html" hmd,
      show (".md" : String).data.length = 3 from rfl]

/-- C3 witness: on `guide/index.md` the `index.md` suffix is elided,
yielding `guide/`; on `guide/intro.md` the `.md` is replaced by `.html`. -/
theorem normalizeUrl_spec_witness :
    (strEndsWith "guide/index.md" "index.md" = true ∧
      normalizeUrl "guide/index.md" = "guide/") ∧
    (strEndsWith "guide/intro.md" "index.md" = false ∧
      strEndsWith "guide/intro.md" ".md" = true ∧
      normalizeUrl "guide/intro.md" = "guide/intro.html") :=
  ⟨⟨by decide, by
      rw [(normalizeUrl_spec "guide/index.md").1 (by decide)]; decide⟩,
    ⟨by decide, by decide, by
      rw [(normalizeUrl_spec "guide/intro.md").2 (by decide) (by decide)]; decide⟩⟩

/-- C4: contrary to the claimed defensive assertion, the collector accepts
an empty page path and silently coerces it into a record whose url is the
empty string — no rejection ever happens. -/
theorem transformPageData_empty_path (t : Option Nat) (ls : List PageLinkRecord) :
    transformPageData "" t ls = ls ++ [{ url := "", lastmod := t }] := by
  have hnorm : normalizeUrl "" = "" := by decide
  simp [transformPageData, hnorm]

/-- C5: a record whose timestamp is absent yields an emitted entry whose
timestamp is absent and whose serialization is exactly the lastmod-free url
element — no placeholder or empty lastmod tag. -/
theorem lastmod_absent_omitted (h : String) (ls : List PageLinkRecord)
    (i : Nat) (r : PageLinkRecord) (hr : ls[i]? = some r)
    (hnone : r.lastmod = none) :
    (emitSitemapEntries h ls)[i]? = some (sitemapWrite h r) ∧
    (sitemapWrite h r).lastmod = none ∧
    renderEntry (sitemapWrite h r) =
      "<url><loc>" ++ (h ++ r.url) ++ "</loc>" ++ "</url>" := by
  refine ⟨?_, ?_, ?_⟩
  · rw [emitSitemapEntries_eq, List.getElem?_map (sitemapWrite h) ls i, hr]
    rfl
  · simp [sitemapWrite, hnone]
  · show "<url><loc>" ++ (h ++ r.url) ++ "</loc>" ++
        (match (sitemapWrite h r).lastmod with
          | none => ""
          | some t => "<lastmod>" ++ toString t ++ "</lastmod>") ++
        "</url>" = _
    simp only [sitemapWrite, hnone]
    rw [str_append_empty]

/-- C5 witness: the record for `index.html` with no timestamp serializes to
a url element with no lastmod tag. -/
theorem lastmod_absent_omitted_witness :
    ([{ url := "index.html", lastmod := none }] : List PageLinkRecord)[0]? =
      some { url := "index.html", lastmod := none } ∧
    (emitSitemapEntries "https://example.com/"
        [{ url := "index.html", lastmod := none }])[0]? =
      some (sitemapWrite "https://example.com/" { url := "index.html", lastmod := none }) ∧
    renderEntry (sitemapWrite "https://example.com/" { url := "index.html", lastmod := none }) =
      "<url><loc>" ++ ("https://example.com/" ++ "index.html") ++ "</loc>" ++ "</url>" := by
  have h := lastmod_absent_omitted "https://example.com/"
    [{ url := "index.html", lastmod := none }] 0
    { url := "index.html", lastmod := none } rfl rfl
  exact ⟨rfl, h.1, h.2.2⟩

/-- C6: emission is deterministic and idempotent — emitting twice on the
same record list, base URL and output path leaves the file system exactly
as one emission does (so the sitemap file's bytes are identical), and the
entries appear in insertion order with their concatenated locations. -/
theorem emitSitemap_idempotent (fs : FileSystem) (h outDir : String)
    (ls : List PageLinkRecord) :
    emitSitemap (emitSitemap fs h outDir ls) h outDir ls = emitSitemap fs h outDir ls ∧
    (emitSitemapEntries h ls).map SitemapEntry.loc = ls.map (fun r => h ++ r.url) := by
  constructor
  · exact writeFile_idem fs (resolvePath outDir "sitemap.xml") (renderSitemap h ls)
  · rw [emitSitemapEntries_eq, List.map_map]
    rfl

/-- C7: the empty record list emits successfully — zero url entries, and
the written `sitemap.xml` is exactly the well-formed empty urlset
document. -/
theorem emitSitemap_empty (fs : FileSystem) (h outDir : String) :
    emitSitemapEntries h [] = [] ∧
    renderSitemap h [] = urlsetOpen ++ urlsetClose ∧
    emitSitemap fs h outDir [] (resolvePath outDir "sitemap.xml") =
      some (urlsetOpen ++ urlsetClose) := by
  have hrender : renderSitemap h [] = urlsetOpen ++ urlsetClose := by
    show urlsetOpen ++ String.join ((emitSitemapEntries h []).map renderEntry) ++ urlsetClose = _
    rw [emitSitemapEntries_eq]
    show urlsetOpen ++ "" ++ urlsetClose = _
    rw [str_append_empty]
  refine ⟨by rw [emitSitemapEntries_eq]; rfl, hrender, ?_⟩
  simp [emitSitemap, writeFile, hrender]

/-- C8: the `buildEnd` emission phase never mutates the collected record
list — it only writes the file system, and the `links` component of the
build state is unchanged. -/
theorem buildEnd_preserves_links (outDir : String) (st : BuildState) :
    (buildEnd outDir st).links = st.links :=
  rfl

/-- C9: the collector performs no de-duplication — collecting the same page
path twice appends two separate (identical) records, and the emitted
sitemap gains two corresponding identical url entries. -/
theorem collector_no_dedup (h p : String) (t : Option Nat)
    (ls : List PageLinkRecord) :
    transformPageData p t (transformPageData p t ls) =
      ls ++ [{ url := normalizeUrl p, lastmod := t },
             { url := normalizeUrl p, lastmod := t }] ∧
    emitSitemapEntries h (transformPageData p t (transformPageData p t ls)) =
      emitSitemapEntries h ls ++
        [sitemapWrite h { url := normalizeUrl p, lastmod := t },
         sitemapWrite h { url := normalizeUrl p, lastmod := t }] := by
  constructor
  · simp [transformPageData]
  · simp [transformPageData, emitSitemapEntries_eq]

/-- C10: the `index.md` elision requires no preceding path separator — for
any prefix not itself ending in `.md`, appending `index.md` and normalizing
gives back exactly the prefix (so `appindex.md` becomes `app`, not
`appindex.html`). -/
theorem normalizeUrl_elision_no_separator (s : String)
    (h : strEndsWith s ".md" = false) :
    normalizeUrl (s ++ "index.md") = s := by
  have hends : strEndsWith (s ++ "index.md") "index.md" = true := by
    rw [strEndsWith_iff]
    show ("index.md" : String).data <:+ s.data ++ ("index.md" : String).data
    exact List.suffix_append s.data _
  have hdrop : strDropRight (s ++ "index.md") 8 = s := by
    show String.mk ((s.data ++ ("index.md" : String).data).take
      ((s.data ++ ("index.md" : String).data).length - 8)) = s
    rw [List.length_append]
    rw [show (("index.md" : String).data.length) = 8 from rfl]
    rw [Nat.add_sub_cancel]
    rw [List.take_left s.data _]
  have h1 : replaceEnd (s ++ "index.md") "index.md" "" = s := by
    rw [replaceEnd_pos (s ++ "index.md") "index.md" "" hends,
      show ("index.md" : String).data.length = 8 from rfl, hdrop, str_append_empty]
  show replaceEnd (replaceEnd (s ++ "index.md") "index.md" "") ".md" ".html" = s
  rw [h1, replaceEnd_neg s ".md" ".html" h]

/-- C10 witness: `appindex.md` normalizes to `app`, not `appindex.html`. -/
theorem normalizeUrl_elision_no_separator_witness :
    strEndsWith "app" ".md" = false ∧
    ("app" ++ "index.md" : String) = "appindex.md" ∧
    normalizeUrl ("app" ++ "index.md") = "app" ∧
    normalizeUrl "appindex.md" ≠ "appindex.html" :=
  ⟨by decide, by decide,
    normalizeUrl_elision_no_separator "app" (by decide), by decide⟩

end QuantumReactor
